import Mathlib

/-!
Shallow embedding of the schedule-monitoring / change-detection engine of
the bot repository: the DTEK schedule diff engine (`DTEKParser._compare_schedules`),
the change-tracking tick (`DTEKParser._track_changes` / `_get_schedule`),
date parsing (`DTEKParser._parse_date`), numeric cell coercion
(`WorkSiteParser._get_stats`, `WorkParserService._parse_worker_row`),
the parser factory (`ParserFactory.create_parser`), the upcoming-shutdown
notifier (`DTEKMonitorService._check_upcoming_shutdowns`), the monitoring
loop (`DTEKMonitorService._monitoring_loop`), and the start/stop task table
(`DTEKMonitorService.start_monitoring` / `stop_monitoring`).
-/

namespace Scan

/-- Does the character list start with two digits, `sep`, two digits?
This is the fixed-width regex `(\d{2})sep(\d{2})` anchored at the head. -/
def pairAt (sep : Char) : List Char → Bool
  | a :: b :: m :: c :: d :: _ =>
    a.isDigit && b.isDigit && (m = sep) && c.isDigit && d.isDigit
  | _ => false

/-- `re.search` for the fixed-width pattern `(\d{2})sep(\d{2})`: scan the
positions left to right and return the two capture groups of the earliest
match. -/
def findPair (sep : Char) : List Char → Option (String × String)
  | [] => none
  | a :: rest =>
    if pairAt sep (a :: rest) then
      some (String.mk ((a :: rest).take 2), String.mk (((a :: rest).drop 3).take 2))
    else findPair sep rest

lemma findPair_eq_none (sep : Char) :
    ∀ l : List Char, (∀ i, pairAt sep (l.drop i) = false) → findPair sep l = none := by
  intro l
  induction l with
  | nil => intro _; rfl
  | cons a rest ih =>
    intro h
    have h0 := h 0
    rw [List.drop_zero] at h0
    rw [findPair, if_neg (by rw [h0]; exact Bool.false_ne_true)]
    exact ih (fun i => h (i + 1))

lemma findPair_eq_of_first_match (sep : Char) :
    ∀ (l : List Char) (i : ℕ), pairAt sep (l.drop i) = true →
    (∀ j, j < i → pairAt sep (l.drop j) = false) →
    findPair sep l =
      some (String.mk ((l.drop i).take 2), String.mk (((l.drop i).drop 3).take 2)) := by
  intro l
  induction l with
  | nil =>
    intro i hi _
    rw [List.drop_nil] at hi
    simp [pairAt] at hi
  | cons a rest ih =>
    intro i hi hmin
    cases i with
    | zero =>
      rw [List.drop_zero] at hi
      rw [findPair, if_pos hi, List.drop_zero]
    | succ i' =>
      have h0 : pairAt sep (a :: rest) = false := by
        have := hmin 0 (Nat.succ_pos i')
        rwa [List.drop_zero] at this
      rw [findPair, if_neg (by rw [h0]; exact Bool.false_ne_true)]
      rw [List.drop_succ_cons] at hi ⊢
      exact ih i' hi (fun j hj => by
        have := hmin (j + 1) (Nat.succ_lt_succ hj)
        rwa [List.drop_succ_cons] at this)

/-- The numeric value of a digit string, as Python `int` computes it on a
string of digits. -/
def digitsToNat (l : List Char) : ℕ :=
  l.foldl (fun acc c => acc * 10 + (c.toNat - 48)) 0

end Scan

namespace DTEK

/-- One day of a parsed schedule, as built by `_parse_schedule_table`:
`{"date": ..., "date_text": ..., "has_shutdowns": len(shutdowns) > 0,
"shutdown_times": shutdowns}`. -/
structure DaySched where
  date : String
  date_text : String
  has_shutdowns : Bool
  shutdown_times : List String
deriving DecidableEq, Repr

/-- The parser always sets `has_shutdowns` to `len(shutdown_times) > 0`
(dtek_parser.py line 267); a day satisfying that equation is well formed. -/
def DaySched.wf (d : DaySched) : Prop :=
  d.has_shutdowns = !d.shutdown_times.isEmpty

instance (d : DaySched) : Decidable d.wf := by
  unfold DaySched.wf; infer_instance

/-- A change record emitted by `_compare_schedules`: either
`{"type": "added", "date": ..., "shutdown_times": ...}` (the raw list) or
`{"type": "modified", "date": ..., "added_times": ..., "removed_times": ...}`
(Python set differences, modelled as `Finset String`). -/
inductive Change where
  | added (date : String) (shutdown_times : List String)
  | modified (date : String) (added_times removed_times : Finset String)
deriving DecidableEq

/-- The date field of a change record. -/
def Change.date : Change → String
  | .added d _ => d
  | .modified d _ _ => d

/-- Lookup in the dict `{day["date"]: day for day in old_schedule}`:
a Python dict comprehension keeps the last entry for a duplicate key,
so we search the reversed list. -/
def old_by_date (old : List DaySched) (date : String) : Option DaySched :=
  old.reverse.find? (fun d => d.date = date)

/-- `DTEKParser._compare_schedules` (dtek_parser.py lines 444-484): walk
`new_schedule` in order; for a date absent from the old dict emit an
`added` change when `new_day["has_shutdowns"]`; for a date present in both
emit a `modified` change when either set difference of `shutdown_times`
is non-empty. -/
def compare_schedules (old : List DaySched) : List DaySched → List Change
  | [] => []
  | new_day :: rest =>
    match old_by_date old new_day.date with
    | none =>
      if new_day.has_shutdowns then
        Change.added new_day.date new_day.shutdown_times :: compare_schedules old rest
      else compare_schedules old rest
    | some old_day =>
      if new_day.shutdown_times.toFinset \ old_day.shutdown_times.toFinset ≠ ∅ ∨
          old_day.shutdown_times.toFinset \ new_day.shutdown_times.toFinset ≠ ∅ then
        Change.modified new_day.date
            (new_day.shutdown_times.toFinset \ old_day.shutdown_times.toFinset)
            (old_day.shutdown_times.toFinset \ new_day.shutdown_times.toFinset)
          :: compare_schedules old rest
      else compare_schedules old rest

lemma compare_schedules_cons_none (old : List DaySched) (day : DaySched)
    (rest : List DaySched) (h : old_by_date old day.date = none) :
    compare_schedules old (day :: rest) =
      if day.has_shutdowns then
        Change.added day.date day.shutdown_times :: compare_schedules old rest
      else compare_schedules old rest := by
  simp [compare_schedules, h]

lemma compare_schedules_cons_some (old : List DaySched) (day old_day : DaySched)
    (rest : List DaySched) (h : old_by_date old day.date = some old_day) :
    compare_schedules old (day :: rest) =
      if day.shutdown_times.toFinset \ old_day.shutdown_times.toFinset ≠ ∅ ∨
          old_day.shutdown_times.toFinset \ day.shutdown_times.toFinset ≠ ∅ then
        Change.modified day.date
            (day.shutdown_times.toFinset \ old_day.shutdown_times.toFinset)
            (old_day.shutdown_times.toFinset \ day.shutdown_times.toFinset)
          :: compare_schedules old rest
      else compare_schedules old rest := by
  simp [compare_schedules, h]

/-- The diff function as the spec words it (§4.3): build a date-keyed map
from `old`; for each day of `new` in order, if its date is absent from `old`
and its slot set is non-empty, emit `day_added` with the day's full slot
set; if present in both, emit `day_modified` with the two set differences
exactly when at least one is non-empty. -/
def specDiff (old : List DaySched) : List DaySched → List Change
  | [] => []
  | new_day :: rest =>
    match old_by_date old new_day.date with
    | none =>
      if new_day.shutdown_times.isEmpty then specDiff old rest
      else Change.added new_day.date new_day.shutdown_times :: specDiff old rest
    | some old_day =>
      if (new_day.shutdown_times.toFinset \ old_day.shutdown_times.toFinset).Nonempty ∨
          (old_day.shutdown_times.toFinset \ new_day.shutdown_times.toFinset).Nonempty then
        Change.modified new_day.date
            (new_day.shutdown_times.toFinset \ old_day.shutdown_times.toFinset)
            (old_day.shutdown_times.toFinset \ new_day.shutdown_times.toFinset)
          :: specDiff old rest
      else specDiff old rest

lemma specDiff_cons_none (old : List DaySched) (day : DaySched)
    (rest : List DaySched) (h : old_by_date old day.date = none) :
    specDiff old (day :: rest) =
      if day.shutdown_times.isEmpty then specDiff old rest
      else Change.added day.date day.shutdown_times :: specDiff old rest := by
  simp [specDiff, h]

lemma specDiff_cons_some (old : List DaySched) (day old_day : DaySched)
    (rest : List DaySched) (h : old_by_date old day.date = some old_day) :
    specDiff old (day :: rest) =
      if (day.shutdown_times.toFinset \ old_day.shutdown_times.toFinset).Nonempty ∨
          (old_day.shutdown_times.toFinset \ day.shutdown_times.toFinset).Nonempty then
        Change.modified day.date
            (day.shutdown_times.toFinset \ old_day.shutdown_times.toFinset)
            (old_day.shutdown_times.toFinset \ day.shutdown_times.toFinset)
          :: specDiff old rest
      else specDiff old rest := by
  simp [specDiff, h]

lemma find?_date_eq_some_of_nodup (l : List DaySched) (x : DaySched)
    (hx : x ∈ l) (hn : (l.map DaySched.date).Nodup) :
    l.find? (fun d => d.date = x.date) = some x := by
  induction l with
  | nil => cases hx
  | cons a t ih =>
    rw [List.map_cons, List.nodup_cons] at hn
    by_cases hax : a.date = x.date
    · have hxa : x = a := by
        rcases List.mem_cons.mp hx with h | h
        · exact h
        · exact absurd (hax ▸ List.mem_map_of_mem DaySched.date h) hn.1
      simp [List.find?, hax, hxa]
    · have hxt : x ∈ t := by
        rcases List.mem_cons.mp hx with h | h
        · exact absurd (h ▸ rfl) hax
        · exact h
      have hdec : (decide (a.date = x.date)) = false := decide_eq_false hax
      simp only [List.find?, hdec]
      exact ih hxt hn.2

lemma old_by_date_self (old : List DaySched)
    (hn : (old.map DaySched.date).Nodup) (d : DaySched) (hd : d ∈ old) :
    old_by_date old d.date = some d := by
  have hn' : (old.reverse.map DaySched.date).Nodup := by
    rw [List.map_reverse]; exact List.nodup_reverse.mpr hn
  exact find?_date_eq_some_of_nodup old.reverse d (List.mem_reverse.mpr hd) hn'

lemma compare_schedules_eq_nil_of_cached (old : List DaySched) :
    ∀ new : List DaySched, (∀ d ∈ new, old_by_date old d.date = some d) →
    compare_schedules old new = [] := by
  intro new
  induction new with
  | nil => intro _; rfl
  | cons day rest ih =>
    intro h
    have hday := h day (List.mem_cons_self day rest)
    have htail := ih (fun d hd => h d (List.mem_cons_of_mem day hd))
    simp [compare_schedules, hday, htail]

lemma compare_schedules_date_mem (old : List DaySched) :
    ∀ (new : List DaySched) (c : Change), c ∈ compare_schedules old new →
    c.date ∈ new.map DaySched.date := by
  intro new
  induction new with
  | nil => intro c hc; cases hc
  | cons day rest ih =>
    intro c hc
    rw [List.map_cons]
    rcases hmatch : old_by_date old day.date with _ | old_day
    · rw [compare_schedules_cons_none old day rest hmatch] at hc
      split at hc
      · rcases List.mem_cons.mp hc with h | h
        · rw [h]; exact List.mem_cons_self _ _
        · exact List.mem_cons_of_mem _ (ih c h)
      · exact List.mem_cons_of_mem _ (ih c hc)
    · rw [compare_schedules_cons_some old day old_day rest hmatch] at hc
      split at hc
      · rcases List.mem_cons.mp hc with h | h
        · rw [h]; exact List.mem_cons_self _ _
        · exact List.mem_cons_of_mem _ (ih c h)
      · exact List.mem_cons_of_mem _ (ih c hc)

/-- The schedules of end-to-end scenario A. -/
def scenarioOld : List DaySched :=
  [⟨"2024-11-21", "21.11 ЧТ", true, ["13:00-13:30"]⟩]

/-- The new schedule of scenario A: one slot added on the same date. -/
def scenarioNew : List DaySched :=
  [⟨"2024-11-21", "21.11 ЧТ", true, ["13:00-13:30", "18:00-18:30"]⟩]

/-- C1: the diff engine agrees with the spec's description of `diff` —
for each day of `new` in order, a `day_added` delta with the full slot set
when the date is absent from `old` and the slot set is non-empty, and a
`day_modified` delta with the two slot-set differences exactly when one of
them is non-empty; and on scenario A it yields exactly one modified delta
for 2024-11-21 adding 18:00-18:30 and removing nothing. -/
theorem compare_schedules_meets_spec (old new : List DaySched)
    (hwf : ∀ d ∈ new, d.wf) :
    compare_schedules old new = specDiff old new ∧
    compare_schedules scenarioOld scenarioNew =
      [Change.modified "2024-11-21" {"18:00-18:30"} ∅] := by
  constructor
  · induction new with
    | nil => rfl
    | cons day rest ih =>
      have hday : day.has_shutdowns = !day.shutdown_times.isEmpty :=
        hwf day (List.mem_cons_self day rest)
      have htail := ih (fun d hd => hwf d (List.mem_cons_of_mem day hd))
      rcases hmatch : old_by_date old day.date with _ | old_day
      · rw [compare_schedules_cons_none old day rest hmatch,
          specDiff_cons_none old day rest hmatch, htail, hday]
        cases he : day.shutdown_times.isEmpty <;> simp [he]
      · rw [compare_schedules_cons_some old day old_day rest hmatch,
          specDiff_cons_some old day old_day rest hmatch, htail]
        have hiff :
            (day.shutdown_times.toFinset \ old_day.shutdown_times.toFinset ≠ ∅ ∨
              old_day.shutdown_times.toFinset \ day.shutdown_times.toFinset ≠ ∅) ↔
            ((day.shutdown_times.toFinset \ old_day.shutdown_times.toFinset).Nonempty ∨
              (old_day.shutdown_times.toFinset \ day.shutdown_times.toFinset).Nonempty) := by
          rw [Finset.nonempty_iff_ne_empty, Finset.nonempty_iff_ne_empty]
        by_cases hcond : day.shutdown_times.toFinset \ old_day.shutdown_times.toFinset ≠ ∅ ∨
            old_day.shutdown_times.toFinset \ day.shutdown_times.toFinset ≠ ∅
        · rw [if_pos hcond, if_pos (hiff.mp hcond)]
        · rw [if_neg hcond, if_neg (fun h => hcond (hiff.mpr h))]
  · decide

/-- C1 witness: the theorem applied to the scenario-A schedules. -/
theorem compare_schedules_meets_spec_witness :
    compare_schedules scenarioOld scenarioNew = specDiff scenarioOld scenarioNew ∧
    compare_schedules scenarioOld scenarioNew =
      [Change.modified "2024-11-21" {"18:00-18:30"} ∅] :=
  compare_schedules_meets_spec scenarioOld scenarioNew (by decide)

/-- C5: a date present in `old` but absent from `new` never occurs in the
delta list — falling out of the rolling window is not reported. -/
theorem no_removal_of_dropped_date (old new : List DaySched) (date : String)
    (_hold : date ∈ old.map DaySched.date)
    (hnew : date ∉ new.map DaySched.date) :
    ∀ c ∈ compare_schedules old new, c.date ≠ date := by
  intro c hc heq
  exact hnew (heq ▸ compare_schedules_date_mem old new c hc)

/-- C5 witness: the date 2024-11-20, present only in the old schedule,
does not appear in the diff against a schedule without it. -/
theorem no_removal_of_dropped_date_witness :
    "2024-11-20" ∈ ([⟨"2024-11-20", "20.11 СР", true, ["10:00-10:30"]⟩] : List DaySched).map DaySched.date ∧
    "2024-11-20" ∉ scenarioNew.map DaySched.date ∧
    ∀ c ∈ compare_schedules [⟨"2024-11-20", "20.11 СР", true, ["10:00-10:30"]⟩] scenarioNew,
      c.date ≠ "2024-11-20" :=
  ⟨by decide, by decide,
    no_removal_of_dropped_date [⟨"2024-11-20", "20.11 СР", true, ["10:00-10:30"]⟩]
      scenarioNew "2024-11-20" (by decide) (by decide)⟩

/-- C9: diffing a schedule against itself yields the empty delta list
(the Schedule invariant guarantees no duplicate dates). -/
theorem compare_schedules_self (old : List DaySched)
    (hn : (old.map DaySched.date).Nodup) :
    compare_schedules old old = [] :=
  compare_schedules_eq_nil_of_cached old old
    (fun d hd => old_by_date_self old hn d hd)

/-- C9 witness: the scenario-A old schedule diffed against itself. -/
theorem compare_schedules_self_witness :
    (scenarioOld.map DaySched.date).Nodup ∧
    compare_schedules scenarioOld scenarioOld = [] :=
  ⟨by decide, compare_schedules_self scenarioOld (by decide)⟩

/-- `DTEKParser._parse_date` (dtek_parser.py lines 277-290): search the
text for `(\d{2})\.(\d{2})`; on a match return `f"{year}-{month}-{day}"`
with `year = datetime.now().year` (passed here explicitly), else return
the text unchanged.  The surrounding `try/except` never fires since the
body is total. -/
def parse_date (year : ℕ) (date_text : String) : String :=
  match Scan.findPair '.' date_text.data with
  | some (day, month) => toString year ++ "-" ++ month ++ "-" ++ day
  | none => date_text

/-- C10: `_parse_date` is total; when the text has a DD.MM two-digit-dot-
two-digit pattern, the result is `"{year}-{MM}-{DD}"` built from the first
such pattern and the supplied clock year (so a window crossing a year
boundary gets the current year on both sides); when the text has no such
pattern it is returned unchanged, so date keys need not be calendar
dates. -/
theorem parse_date_spec (year : ℕ) (s : String) :
    ((∀ i, Scan.pairAt '.' (s.data.drop i) = false) → parse_date year s = s) ∧
    (∀ i, Scan.pairAt '.' (s.data.drop i) = true →
      (∀ j, j < i → Scan.pairAt '.' (s.data.drop j) = false) →
      parse_date year s =
        toString year ++ "-" ++ String.mk (((s.data.drop i).drop 3).take 2)
          ++ "-" ++ String.mk ((s.data.drop i).take 2)) := by
  constructor
  · intro h
    rw [parse_date, Scan.findPair_eq_none '.' s.data h]
  · intro i hi hmin
    rw [parse_date, Scan.findPair_eq_of_first_match '.' s.data i hi hmin]

/-- C10 witness: a label with a date pattern is restamped with the clock
year, and a label without one passes through unchanged. -/
theorem parse_date_spec_witness :
    parse_date 2024 "21.11 ЧТ" =
      toString 2024 ++ "-" ++ String.mk ((("21.11 ЧТ".data.drop 0).drop 3).take 2)
        ++ "-" ++ String.mk (("21.11 ЧТ".data.drop 0).take 2) ∧
    parse_date 2024 "немає даних" = "немає даних" := by
  constructor
  · exact (parse_date_spec 2024 "21.11 ЧТ").2 0 (by decide)
      (fun j hj => absurd hj (Nat.not_lt_zero j))
  · refine (parse_date_spec 2024 "немає даних").1 ?_
    intro i
    by_cases hlen : i < 11
    · interval_cases i <;> decide
    · rw [List.drop_eq_nil_of_le
        (le_trans (by decide : "немає даних".data.length ≤ 11) (Nat.le_of_not_lt hlen))]
      rfl

/-- The parser field `self.cached_schedule` relevant to change tracking
(`None` until the first successful `_get_schedule`). -/
structure ParserState where
  cached_schedule : Option (List DaySched)
deriving DecidableEq

/-- `DTEKParser._get_schedule` (dtek_parser.py lines 173-221), abstracted
over the extraction outcome of this tick: on success the result is built
and `self.cached_schedule = result` is assigned before returning; on a
failure (form-fill failure or exception) an error dict is returned and
the cache is left untouched. -/
def get_schedule_step (st : ParserState) (extracted : Option (List DaySched)) :
    ParserState × Option (List DaySched) :=
  match extracted with
  | none => (st, none)
  | some sched => (⟨some sched⟩, some sched)

/-- The success payload of `_track_changes`. -/
structure TrackResult where
  has_changes : Bool
  changes : List Change
  first_check : Bool
deriving DecidableEq

/-- `DTEKParser._track_changes` (dtek_parser.py lines 394-442): run
`_get_schedule` (which overwrites `self.cached_schedule` on success),
return the error on failure, take the "first check" branch when
`self.cached_schedule` is falsy, otherwise compare the cached schedule
with the new one, report `has_changes = len(changes) > 0` and store the
new result in the cache. -/
def track_changes_step (st : ParserState) (extracted : Option (List DaySched)) :
    ParserState × Option TrackResult :=
  match get_schedule_step st extracted with
  | (st1, none) => (st1, none)
  | (st1, some new_sched) =>
    match st1.cached_schedule with
    | none => (st1, some ⟨false, [], true⟩)
    | some cached =>
      (⟨some new_sched⟩,
        some ⟨decide (0 < (compare_schedules cached new_sched).length),
          compare_schedules cached new_sched, false⟩)

/-- C2 evidence: on every successful tick, `_get_schedule` has already
overwritten `self.cached_schedule` with the new result by the time
`_track_changes` reads it, so the code diffs the new schedule against
itself: the previous cache is never consulted, the "first check" branch
is unreachable on the success path, and `has_changes` is always false for
any schedule without duplicate dates — the monitor can never report a
change. -/
theorem track_changes_diffs_new_against_itself
    (st : ParserState) (sched : List DaySched)
    (hn : (sched.map DaySched.date).Nodup) :
    track_changes_step st (some sched) = (⟨some sched⟩, some ⟨false, [], false⟩) := by
  have hself := compare_schedules_self sched hn
  simp [track_changes_step, get_schedule_step, hself]

/-- C2 evidence witness: with the scenario-A old schedule cached, a tick
that extracts the scenario-A new schedule (one slot added) still reports
no changes. -/
theorem track_changes_diffs_new_against_itself_witness :
    (scenarioNew.map DaySched.date).Nodup ∧
    track_changes_step ⟨some scenarioOld⟩ (some scenarioNew) =
      (⟨some scenarioNew⟩, some ⟨false, [], false⟩) :=
  ⟨by decide, track_changes_diffs_new_against_itself ⟨some scenarioOld⟩ scenarioNew (by decide)⟩

end DTEK

namespace WorkSite

/-- The digit-and-underscore body of a Python integer literal string:
a non-empty digit run in which single underscores may separate digits
(`"1_0"` is accepted, `"_1"`, `"1_"`, `"1__0"` are not). -/
def pyDigits : List Char → Option ℕ
  | [] => none
  | c :: rest => if c.isDigit then pyDigitsGo (c.toNat - 48) rest else none
where
  pyDigitsGo : ℕ → List Char → Option ℕ
  | acc, [] => some acc
  | acc, c :: rest =>
    if c.isDigit then pyDigitsGo (acc * 10 + (c.toNat - 48)) rest
    else if c = '_' then
      match rest with
      | [] => none
      | d :: rest2 =>
        if d.isDigit then pyDigitsGo (acc * 10 + (d.toNat - 48)) rest2 else none
    else none

/-- Python's `int(str)`: strip surrounding whitespace, allow one optional
sign, then require a digit run (with optional single underscores);
everything else raises `ValueError`, modelled as `none`. -/
def pyInt (s : String) : Option ℤ :=
  match (s.data.dropWhile Char.isWhitespace).reverse.dropWhile Char.isWhitespace
      |>.reverse with
  | '+' :: rest => (pyDigits rest).map Int.ofNat
  | '-' :: rest => (pyDigits rest).map (fun n => -(n : ℤ))
  | rest => (pyDigits rest).map Int.ofNat

/-- `int(await elem.inner_text()) if elem else 0`
(work_site_parser.py lines 176-189): a missing element yields 0; a present
element's text goes through Python `int`, whose `ValueError` propagates
(modelled as `Except.error`). -/
def coerce_stat (cell : Option String) : Except String ℤ :=
  match cell with
  | none => .ok 0
  | some t =>
    match pyInt t with
    | some n => .ok n
    | none => .error "ValueError"

/-- The coercion as the spec words it: take the first contiguous digit run
of the text; absence of a digit (or of the cell) yields 0 and never an
error. -/
def lossyCoerce (cell : Option String) : ℤ :=
  match cell with
  | none => 0
  | some t =>
    Int.ofNat (Scan.digitsToNat ((t.data.dropWhile (fun c => !c.isDigit)).takeWhile Char.isDigit))

/-- The cells of one row that `_get_stats` reads (name badge and the three
numeric badges; the scam icons do not matter for numeric coercion). -/
structure StatRow where
  name_cell : Option String
  sfs_cell : Option String
  only_now_cell : Option String
  sch_cell : Option String
deriving DecidableEq

/-- The per-row body of the loop of `WorkSiteParser._get_stats`: name
defaults to "Unknown"; each numeric badge goes through `coerce_stat`; the
first `ValueError` aborts the row. -/
def get_stats_row (r : StatRow) : Except String (String × ℤ × ℤ × ℤ) := do
  let name := r.name_cell.getD "Unknown"
  let sfs ← coerce_stat r.sfs_cell
  let only_now ← coerce_stat r.only_now_cell
  let sch ← coerce_stat r.sch_cell
  pure (name, sfs, only_now, sch)

/-- The row loop of `_get_stats` sits inside one `try/except`, so the
first exception turns the whole call into a `{"success": False}` result:
the rows are processed in order and an error anywhere is the result of
the call. -/
def get_stats_workers : List StatRow → Except String (List (String × ℤ × ℤ × ℤ))
  | [] => .ok []
  | r :: rest => do
    let w ← get_stats_row r
    let ws ← get_stats_workers rest
    pure (w :: ws)

/-- The cells of one row that `WorkParserService._parse_worker_row` reads
(report id and the three numeric badges). -/
structure WorkerRow where
  id_cell : Option String
  sfs_cell : Option String
  sch_cell : Option String
  only_now_cell : Option String
deriving DecidableEq

/-- Python `str.strip("#")`: remove leading and trailing `#` characters. -/
def stripHash (s : String) : String :=
  String.mk (((s.data.dropWhile (· = '#')).reverse.dropWhile (· = '#')).reverse)

/-- `WorkParserService._parse_worker_row` (work_parser_service.py lines
277-354) restricted to its numeric fields: the whole body is wrapped in
`try/except` returning `None`, so any `ValueError` drops the row; a
missing badge yields 0 (or `sfs - sch` for only_now). -/
def parse_worker_row (r : WorkerRow) : Option (ℤ × ℤ × ℤ × ℤ) := do
  let report_id ← pyInt (stripHash (r.id_cell.getD "#0"))
  let sfs ← match r.sfs_cell with
    | none => some (0 : ℤ)
    | some t => pyInt t
  let sch ← match r.sch_cell with
    | none => some (0 : ℤ)
    | some t => pyInt t
  let only_now ← match r.only_now_cell with
    | none => some (sfs - sch)
    | some t => pyInt t
  pure (report_id, sfs, sch, only_now)

/-- The caller loop (work_parser_service.py lines 227-249) appends a row's
data only `if worker_data:`, so a row on which `_parse_worker_row` raised
is skipped. -/
def collect_workers (rows : List WorkerRow) : List (ℤ × ℤ × ℤ × ℤ) :=
  rows.filterMap parse_worker_row

/-- C3 counterexample: a present but non-numeric cell does not coerce to 0
— Python `int("N/A")` raises. In `_get_stats` the ValueError turns the
whole call into a failure result, and in `_parse_worker_row` the row is
dropped, while the claim's first-digit-run coercion would have produced 0
and kept the row. -/
theorem numeric_coercion_raises_counterexample :
    coerce_stat (some "N/A") = .error "ValueError" ∧
    lossyCoerce (some "N/A") = 0 ∧
    get_stats_workers [⟨some "Alice", some "N/A", some "1", some "2"⟩] =
      .error "ValueError" ∧
    collect_workers [⟨some "#7", some "N/A", some "1", some "2"⟩] = [] := by
  refine ⟨rfl, rfl, rfl, rfl⟩

/-- C3 amended: a missing cell yields 0; a present cell is coerced with
Python `int`, which succeeds on numeric text and raises on anything else;
in `_get_stats` the first such error is the result of the whole call, and
in `_parse_worker_row` it drops the row from the collected list. -/
theorem numeric_coercion_amended :
    coerce_stat none = .ok 0 ∧
    (∀ t n, pyInt t = some n → coerce_stat (some t) = .ok n) ∧
    (∀ t, pyInt t = none → coerce_stat (some t) = .error "ValueError") ∧
    (∀ (r : StatRow) (e : String) (rest : List StatRow), get_stats_row r = .error e →
      get_stats_workers (r :: rest) = .error e) ∧
    (∀ (r : WorkerRow) (rest : List WorkerRow), parse_worker_row r = none →
      collect_workers (r :: rest) = collect_workers rest) := by
  refine ⟨rfl, ?_, ?_, ?_, ?_⟩
  · intro t n h
    simp [coerce_stat, h]
  · intro t h
    simp [coerce_stat, h]
  · intro r e rest h
    simp only [get_stats_workers, h]
    rfl
  · intro r rest h
    simp [collect_workers, List.filterMap_cons, h]

/-- C3 amended witness: numeric text parses, the empty cell defaults, and
a bad cell fails the whole `_get_stats` call and drops the worker row. -/
theorem numeric_coercion_amended_witness :
    pyInt "12" = some 12 ∧
    coerce_stat (some "12") = .ok 12 ∧
    get_stats_row ⟨some "Alice", some "N/A", some "1", some "2"⟩ = .error "ValueError" ∧
    get_stats_workers [⟨some "Alice", some "N/A", some "1", some "2"⟩] = .error "ValueError" ∧
    parse_worker_row ⟨some "#7", some "N/A", some "1", some "2"⟩ = none ∧
    collect_workers [⟨some "#7", some "N/A", some "1", some "2"⟩] = collect_workers [] :=
  ⟨rfl, numeric_coercion_amended.2.1 "12" 12 rfl, rfl,
    numeric_coercion_amended.2.2.2.1 ⟨some "Alice", some "N/A", some "1", some "2"⟩
      "ValueError" [] rfl,
    rfl,
    numeric_coercion_amended.2.2.2.2 ⟨some "#7", some "N/A", some "1", some "2"⟩ [] rfl⟩

end WorkSite

namespace Factory

/-- An abstract constructed parser instance. -/
structure ParserInst where
  id : ℕ
deriving DecidableEq

/-- A registered parser class: the constructor may raise, and
`initialize()` may return `False` or raise (both modelled with
`Except`). -/
structure ParserClass where
  construct : List (String × String) → Except String ParserInst
  runInit : ParserInst → Except String Bool

/-- `ParserRegistry.get_parser_class`: lookup in the dict
`ParserRegistry._parsers` (a later `register` for the same name wins, as
a Python dict assignment overwrites). -/
def registryGet (reg : List (String × ParserClass)) (name : String) : Option ParserClass :=
  (reg.reverse.find? (fun p => p.1 = name)).map Prod.snd

/-- `ParserFactory.create_parser` (parser_factory.py lines 78-115): an
unknown name returns `None`; then inside one `try/except`, a raising
constructor returns `None`, and with `auto_init` an `initialize()` that
returns `False` or raises returns `None`; otherwise the instance is
returned.  Only the log messages differ between the failure paths. -/
def createParser (reg : List (String × ParserClass)) (name : String)
    (config_data : List (String × String)) (auto_init : Bool) : Option ParserInst :=
  match registryGet reg name with
  | none => none
  | some pc =>
    match pc.construct config_data with
    | .error _ => none
    | .ok p =>
      if auto_init then
        match pc.runInit p with
        | .error _ => none
        | .ok false => none
        | .ok true => some p
      else some p

/-- A class whose constructor raises. -/
def throwingClass : ParserClass :=
  ⟨fun _ => .error "boom", fun _ => .ok true⟩

/-- A class that constructs but whose `initialize()` returns `False`
(e.g. the browser failed to launch). -/
def failingInitClass : ParserClass :=
  ⟨fun _ => .ok ⟨0⟩, fun _ => .ok false⟩

/-- C4 counterexample: the three failure cases — unknown scraper name,
construction exception, failed initialization — all return the same
caller-visible value `None`; the caller cannot distinguish them. -/
theorem createParser_failures_indistinct :
    createParser [] "dtek" [] true = none ∧
    createParser [("x", throwingClass)] "x" [] true = none ∧
    createParser [("y", failingInitClass)] "y" [] true = none ∧
    createParser [] "dtek" [] true = createParser [("x", throwingClass)] "x" [] true :=
  ⟨rfl, rfl, rfl, rfl⟩

/-- C4 amended: every failure path of `create_parser` — unknown name,
raising constructor, initialization returning `False` or raising —
returns the single undifferentiated value `None`. -/
theorem createParser_fails_to_none :
    (∀ reg name cfg ai, registryGet reg name = none →
      createParser reg name cfg ai = none) ∧
    (∀ reg name cfg ai pc e, registryGet reg name = some pc →
      pc.construct cfg = .error e → createParser reg name cfg ai = none) ∧
    (∀ reg name cfg pc p, registryGet reg name = some pc →
      pc.construct cfg = .ok p → pc.runInit p ≠ .ok true →
      createParser reg name cfg true = none) := by
  refine ⟨?_, ?_, ?_⟩
  · intro reg name cfg ai h
    simp [createParser, h]
  · intro reg name cfg ai pc e hreg hc
    simp [createParser, hreg, hc]
  · intro reg name cfg pc p hreg hc hinit
    simp only [createParser, hreg, hc, if_true]
    rcases hi : pc.runInit p with e | b
    · rfl
    · cases b
      · rfl
      · exact absurd hi hinit

/-- C4 amended witness: the three failure paths at concrete inputs. -/
theorem createParser_fails_to_none_witness :
    createParser [] "dtek" [] true = none ∧
    createParser [("x", throwingClass)] "x" [] true = none ∧
    createParser [("y", failingInitClass)] "y" [] true = none :=
  ⟨createParser_fails_to_none.1 [] "dtek" [] true rfl,
    createParser_fails_to_none.2.1 [("x", throwingClass)] "x" [] true
      throwingClass "boom" rfl rfl,
    createParser_fails_to_none.2.2 [("y", failingInitClass)] "y" []
      failingInitClass ⟨0⟩ rfl rfl
      (fun h => Bool.noConfusion (Except.ok.inj h))⟩

end Factory

namespace Monitor

/-- The Kyiv wall clock `now = datetime.now(kiev_tz)` at one tick, split
into today's midnight as an absolute time (`base`, in seconds) and the
time-of-day components.  Rationals keep the timedelta arithmetic exact;
`timedelta.total_seconds()` is exact here because the microsecond fields
of `now` and of `now.replace(...)` coincide and cancel. -/
structure Now where
  base : ℚ
  hour : ℕ
  minute : ℕ
  second : ℕ
  micro : ℕ
deriving DecidableEq

/-- `now` as an absolute time in seconds. -/
def Now.toAbs (c : Now) : ℚ :=
  c.base + 3600 * c.hour + 60 * c.minute + c.second + (c.micro : ℚ) / 1000000

/-- `now.replace(hour=h, minute=m, second=0)` as an absolute time: the
date and the microsecond field are kept, the second is zeroed. -/
def Now.replaceHM (c : Now) (h m : ℕ) : ℚ :=
  c.base + 3600 * h + 60 * m + (c.micro : ℚ) / 1000000

/-- The slot loop body of `DTEKMonitorService._check_upcoming_shutdowns`
(dtek_monitor_service.py lines 320-342): parse `(\d{2}):(\d{2})` from the
slot, build `slot_time`, compute `time_diff` in minutes, and when it lies
in `[15, 30]` and the slot was never notified or was notified more than
3600 seconds ago, append the slot to `upcoming` and stamp
`last_notifications[user_id][slot] = now`.  The accumulator is the pair
(`upcoming`, the user's `last_notifications` map). -/
def upcoming_step (now : Now) (acc : List String × (String → Option ℚ))
    (slot : String) : List String × (String → Option ℚ) :=
  match Scan.findPair ':' slot.data with
  | none => acc
  | some (hs, ms) =>
    if 15 ≤ (now.replaceHM (Scan.digitsToNat hs.data) (Scan.digitsToNat ms.data)
          - now.toAbs) / 60 ∧
        (now.replaceHM (Scan.digitsToNat hs.data) (Scan.digitsToNat ms.data)
          - now.toAbs) / 60 ≤ 30 then
      match acc.2 slot with
      | none => (acc.1 ++ [slot], fun k => if k = slot then some now.toAbs else acc.2 k)
      | some t =>
        if now.toAbs - t > 3600 then
          (acc.1 ++ [slot], fun k => if k = slot then some now.toAbs else acc.2 k)
        else acc
    else acc

/-- One call of `_check_upcoming_shutdowns` for one user: `sched` is the
freshly fetched today's `DaySchedule` (`none` when the fetch failed or
there is no entry for today); when it is absent or has no shutdowns the
function returns with no notification and the map untouched, else it runs
the slot loop.  The emitted notification lists the slots of `upcoming`. -/
def check_upcoming (last : String → Option ℚ) (sched : Option DTEK.DaySched)
    (now : Now) : List String × (String → Option ℚ) :=
  match sched with
  | none => ([], last)
  | some day =>
    if day.has_shutdowns then day.shutdown_times.foldl (upcoming_step now) ([], last)
    else ([], last)

/-- The user's `last_notifications` map after a sequence of ticks,
each given by the fetched today's schedule and the tick's clock. -/
def run_state (last : String → Option ℚ) :
    List (Option DTEK.DaySched × Now) → (String → Option ℚ)
  | [] => last
  | (sched, now) :: rest => run_state ((check_upcoming last sched now).2) rest

/-- The claim's eligibility condition: the slot's parsed start time lies
within `[now + 15 min, now + 30 min]`. -/
def in_window (now : Now) (slot : String) : Prop :=
  ∃ hs ms : String, Scan.findPair ':' slot.data = some (hs, ms) ∧
    now.toAbs + 15 * 60 ≤
      now.replaceHM (Scan.digitsToNat hs.data) (Scan.digitsToNat ms.data) ∧
    now.replaceHM (Scan.digitsToNat hs.data) (Scan.digitsToNat ms.data) ≤
      now.toAbs + 30 * 60

lemma step_frozen (now : Now) (s slot : String) (t : ℚ) (hle : now.toAbs - t ≤ 3600)
    (acc : List String × (String → Option ℚ)) (h : acc.2 s = some t) :
    (upcoming_step now acc slot).2 s = some t ∧
    (s ∈ (upcoming_step now acc slot).1 ↔ s ∈ acc.1) := by
  unfold upcoming_step
  rcases hfind : Scan.findPair ':' slot.data with _ | ⟨hs, ms⟩
  · exact ⟨h, Iff.rfl⟩
  · dsimp only
    by_cases hw : 15 ≤ (now.replaceHM (Scan.digitsToNat hs.data) (Scan.digitsToNat ms.data)
          - now.toAbs) / 60 ∧
        (now.replaceHM (Scan.digitsToNat hs.data) (Scan.digitsToNat ms.data)
          - now.toAbs) / 60 ≤ 30
    · rw [if_pos hw]
      by_cases hslot : slot = s
      · subst hslot
        rw [h]
        dsimp only
        rw [if_neg (show ¬now.toAbs - t > 3600 by linarith)]
        exact ⟨h, Iff.rfl⟩
      · have hns : ¬ s = slot := fun hk => hslot hk.symm
        rcases hacc : acc.2 slot with _ | t'
        · dsimp only
          refine ⟨?_, ?_⟩
          · show (if s = slot then some now.toAbs else acc.2 s) = some t
            rw [if_neg hns]; exact h
          · show s ∈ acc.1 ++ [slot] ↔ s ∈ acc.1
            simp [List.mem_append, hns]
        · dsimp only
          by_cases hgt : now.toAbs - t' > 3600
          · rw [if_pos hgt]
            refine ⟨?_, ?_⟩
            · show (if s = slot then some now.toAbs else acc.2 s) = some t
              rw [if_neg hns]; exact h
            · show s ∈ acc.1 ++ [slot] ↔ s ∈ acc.1
              simp [List.mem_append, hns]
          · rw [if_neg hgt]
            exact ⟨h, Iff.rfl⟩
    · rw [if_neg hw]
      exact ⟨h, Iff.rfl⟩

lemma fold_frozen (now : Now) (s : String) (t : ℚ) (hle : now.toAbs - t ≤ 3600) :
    ∀ (slots : List String) (acc : List String × (String → Option ℚ)),
    acc.2 s = some t →
    ((slots.foldl (upcoming_step now) acc).2 s = some t ∧
      ((s ∈ (slots.foldl (upcoming_step now) acc).1) ↔ s ∈ acc.1)) := by
  intro slots
  induction slots with
  | nil => intro acc h; exact ⟨h, Iff.rfl⟩
  | cons slot rest ih =>
    intro acc h
    rw [List.foldl_cons]
    obtain ⟨h1, h2⟩ := step_frozen now s slot t hle acc h
    obtain ⟨h3, h4⟩ := ih (upcoming_step now acc slot) h1
    exact ⟨h3, h4.trans h2⟩

lemma step_emit (now : Now) (acc : List String × (String → Option ℚ))
    (slot s : String) (h : s ∈ (upcoming_step now acc slot).1) :
    s ∈ acc.1 ∨
      (s = slot ∧ (upcoming_step now acc slot).2 s = some now.toAbs ∧ in_window now s) := by
  unfold upcoming_step at h ⊢
  rcases hfind : Scan.findPair ':' slot.data with _ | ⟨hs, ms⟩ <;> rw [hfind] at h
  · exact Or.inl h
  · dsimp only at h ⊢
    by_cases hw : 15 ≤ (now.replaceHM (Scan.digitsToNat hs.data) (Scan.digitsToNat ms.data)
          - now.toAbs) / 60 ∧
        (now.replaceHM (Scan.digitsToNat hs.data) (Scan.digitsToNat ms.data)
          - now.toAbs) / 60 ≤ 30
    · have hwin : in_window now slot := by
        refine ⟨hs, ms, hfind, ?_, ?_⟩
        · have h1 := hw.1
          rw [le_div_iff₀ (by norm_num : (0:ℚ) < 60)] at h1
          linarith
        · have h2 := hw.2
          rw [div_le_iff₀ (by norm_num : (0:ℚ) < 60)] at h2
          linarith
      rw [if_pos hw] at h ⊢
      rcases hacc : acc.2 slot with _ | t'
      · rw [hacc] at h
        dsimp only at h ⊢
        rcases List.mem_append.mp h with h' | h'
        · exact Or.inl h'
        · have hs' : s = slot := List.mem_singleton.mp h'
          subst hs'
          exact Or.inr ⟨rfl, by simp, hwin⟩
      · rw [hacc] at h
        dsimp only at h ⊢
        by_cases hgt : now.toAbs - t' > 3600
        · rw [if_pos hgt] at h ⊢
          rcases List.mem_append.mp h with h' | h'
          · exact Or.inl h'
          · have hs' : s = slot := List.mem_singleton.mp h'
            subst hs'
            exact Or.inr ⟨rfl, by simp, hwin⟩
        · rw [if_neg hgt] at h
          exact Or.inl h
    · rw [if_neg hw] at h
      exact Or.inl h

lemma fold_emit (now : Now) (s : String) :
    ∀ (slots : List String) (acc : List String × (String → Option ℚ)),
    s ∈ (slots.foldl (upcoming_step now) acc).1 → s ∉ acc.1 →
    ((slots.foldl (upcoming_step now) acc).2 s = some now.toAbs ∧ in_window now s) := by
  intro slots
  induction slots with
  | nil => intro acc h hn; exact absurd h hn
  | cons slot rest ih =>
    intro acc h hn
    rw [List.foldl_cons] at h ⊢
    by_cases hmem : s ∈ (upcoming_step now acc slot).1
    · rcases step_emit now acc slot s hmem with h' | ⟨_, hstamp, hwin⟩
      · exact absurd h' hn
      · have hfr := fold_frozen now s now.toAbs (by linarith) rest
          (upcoming_step now acc slot) hstamp
        exact ⟨hfr.1, hwin⟩
    · exact ih (upcoming_step now acc slot) h hmem

lemma check_blocked (last : String → Option ℚ) (sched : Option DTEK.DaySched)
    (now : Now) (s : String) (t : ℚ)
    (h : last s = some t) (hle : now.toAbs - t ≤ 3600) :
    s ∉ (check_upcoming last sched now).1 ∧
      (check_upcoming last sched now).2 s = some t := by
  rcases sched with _ | day
  · exact ⟨List.not_mem_nil s, h⟩
  · unfold check_upcoming
    dsimp only
    by_cases hsd : day.has_shutdowns
    · rw [if_pos hsd]
      obtain ⟨h1, h2⟩ := fold_frozen now s t hle day.shutdown_times ([], last) h
      exact ⟨fun hmem => absurd (h2.mp hmem) (List.not_mem_nil s), h1⟩
    · rw [if_neg hsd]
      exact ⟨List.not_mem_nil s, h⟩

lemma check_emit (last : String → Option ℚ) (sched : Option DTEK.DaySched)
    (now : Now) (s : String) (h : s ∈ (check_upcoming last sched now).1) :
    (check_upcoming last sched now).2 s = some now.toAbs ∧ in_window now s := by
  rcases sched with _ | day
  · exact absurd h (List.not_mem_nil s)
  · unfold check_upcoming at h ⊢
    dsimp only at h ⊢
    by_cases hsd : day.has_shutdowns
    · rw [if_pos hsd] at h ⊢
      exact fold_emit now s day.shutdown_times ([], last) h (List.not_mem_nil s)
    · rw [if_neg hsd] at h
      exact absurd h (List.not_mem_nil s)

lemma run_state_blocked (s : String) (t : ℚ) :
    ∀ (ticks : List (Option DTEK.DaySched × Now)) (last : String → Option ℚ),
    last s = some t → (∀ p ∈ ticks, p.2.toAbs - t ≤ 3600) →
    run_state last ticks s = some t := by
  intro ticks
  induction ticks with
  | nil => intro last h _; exact h
  | cons p rest ih =>
    intro last h hle
    obtain ⟨sched, now⟩ := p
    rw [run_state]
    exact ih _ (check_blocked last sched now s t h
        (hle (sched, now) (List.mem_cons_self _ _))).2
      (fun q hq => hle q (List.mem_cons_of_mem _ hq))

lemma run_state_append (a b : List (Option DTEK.DaySched × Now)) :
    ∀ last, run_state last (a ++ b) = run_state (run_state last a) b := by
  induction a with
  | nil => intro last; rfl
  | cons p rest ih =>
    intro last
    obtain ⟨sched, now⟩ := p
    rw [List.cons_append, run_state, run_state, ih]

/-- C6: (dedup) if an upcoming notification for slot `s` is emitted at a
tick with clock `now_i`, then no later tick whose clock — and all clocks
in between — is at most 3600 seconds after `now_i` emits `s` again; and
(window) an upcoming notification is only ever emitted for a slot whose
parsed start time lies within `[now + 15 min, now + 30 min]`. -/
theorem upcoming_dedup_and_window :
    (∀ (l₀ : String → Option ℚ) (pre mid : List (Option DTEK.DaySched × Now))
        (sched_i sched_j : Option DTEK.DaySched) (now_i now_j : Now) (s : String),
      s ∈ (check_upcoming (run_state l₀ pre) sched_i now_i).1 →
      (∀ p ∈ mid, p.2.toAbs ≤ now_i.toAbs + 3600) →
      now_j.toAbs ≤ now_i.toAbs + 3600 →
      s ∉ (check_upcoming (run_state l₀ (pre ++ (sched_i, now_i) :: mid))
            sched_j now_j).1) ∧
    (∀ (last : String → Option ℚ) (sched : Option DTEK.DaySched) (now : Now)
        (s : String), s ∈ (check_upcoming last sched now).1 → in_window now s) := by
  constructor
  · intro l₀ pre mid sched_i sched_j now_i now_j s hmem hmid hj
    have hstamp := (check_emit (run_state l₀ pre) sched_i now_i s hmem).1
    rw [run_state_append pre ((sched_i, now_i) :: mid) l₀, run_state]
    have hstate := run_state_blocked s now_i.toAbs mid
      ((check_upcoming (run_state l₀ pre) sched_i now_i).2) hstamp
      (fun p hp => by linarith [hmid p hp])
    exact (check_blocked _ sched_j now_j s now_i.toAbs hstate (by linarith)).1
  · intro last sched now s h
    exact (check_emit last sched now s h).2

/-- A concrete today's schedule with one slot starting at 13:00. -/
def exToday : DTEK.DaySched := ⟨"2024-11-21", "21.11 ЧТ", true, ["13:00-13:30"]⟩

/-- C6 witness: at 12:40 the 13:00 slot (20 minutes ahead) is notified;
at 12:41, one minute later and still inside the dedup hour, it is not
notified again even though it is still inside the lookahead window. -/
theorem upcoming_dedup_and_window_witness :
    "13:00-13:30" ∈
      (check_upcoming (run_state (fun _ => none) []) (some exToday)
        ⟨0, 12, 40, 0, 0⟩).1 ∧
    (Now.mk 0 12 41 0 0).toAbs ≤ (Now.mk 0 12 40 0 0).toAbs + 3600 ∧
    "13:00-13:30" ∉
      (check_upcoming (run_state (fun _ => none) ([] ++ (some exToday, ⟨0, 12, 40, 0, 0⟩) :: []))
        (some exToday) ⟨0, 12, 41, 0, 0⟩).1 := by
  have hfind : Scan.findPair ':' ("13:00-13:30").data = some ("13", "00") := by decide
  have hd13 : Scan.digitsToNat ("13").data = 13 := by decide
  have hd00 : Scan.digitsToNat ("00").data = 0 := by decide
  have hcond : 15 ≤ ((Now.mk 0 12 40 0 0).replaceHM 13 0 - (Now.mk 0 12 40 0 0).toAbs) / 60 ∧
      ((Now.mk 0 12 40 0 0).replaceHM 13 0 - (Now.mk 0 12 40 0 0).toAbs) / 60 ≤ 30 := by
    norm_num [Now.replaceHM, Now.toAbs]
  have hA : "13:00-13:30" ∈
      (check_upcoming (run_state (fun _ => none) []) (some exToday) ⟨0, 12, 40, 0, 0⟩).1 := by
    show "13:00-13:30" ∈
      (check_upcoming (fun _ => none) (some exToday) ⟨0, 12, 40, 0, 0⟩).1
    unfold check_upcoming exToday
    dsimp only
    rw [if_pos rfl, List.foldl_cons, List.foldl_nil]
    unfold upcoming_step
    rw [hfind]
    dsimp only
    rw [hd13, hd00, if_pos hcond]
    dsimp only
    simp
  have hB : (Now.mk 0 12 41 0 0).toAbs ≤ (Now.mk 0 12 40 0 0).toAbs + 3600 := by
    norm_num [Now.toAbs]
  exact ⟨hA, hB,
    upcoming_dedup_and_window.1 (fun _ => none) [] [] (some exToday) (some exToday)
      ⟨0, 12, 40, 0, 0⟩ ⟨0, 12, 41, 0, 0⟩ "13:00-13:30"
      hA (fun p hp => absurd hp (List.not_mem_nil p)) hB⟩

/-- What one iteration body of `_monitoring_loop`
(dtek_monitor_service.py lines 245-265) observes: `check_for_changes`
returned a result dict (it catches its own exceptions, so a failed
extraction arrives as `success = false`), some awaited call raised a
non-cancellation exception caught by the generic `except`, or
`asyncio.CancelledError` was observed. -/
inductive TickOutcome where
  | result (success : Bool) (has_changes : Bool)
  | raised
  | cancelled
deriving DecidableEq

/-- One pass of the `while True` body: returns whether a change
notification is routed, the sleep performed before the next pass
(`none` when none is performed), and whether the loop continues. -/
def loop_iteration (check_interval : ℕ) : TickOutcome → Bool × Option ℕ × Bool
  | .result success has_changes => (success && has_changes, some check_interval, true)
  | .raised => (false, some check_interval, true)
  | .cancelled => (false, none, false)

/-- The loop run against a script of tick outcomes: the sleeps performed
and whether the loop was ended (by `break` on cancellation).  An unended
run simply has not observed a cancellation yet. -/
def monitoring_loop_run (check_interval : ℕ) : List TickOutcome → List ℕ × Bool
  | [] => ([], false)
  | .cancelled :: _ => ([], true)
  | .result _ _ :: rest =>
    ((monitoring_loop_run check_interval rest).1.cons check_interval,
      (monitoring_loop_run check_interval rest).2)
  | .raised :: rest =>
    ((monitoring_loop_run check_interval rest).1.cons check_interval,
      (monitoring_loop_run check_interval rest).2)

/-- C7: a failed extraction (error result or raised exception) routes no
notification, sleeps the same `check_interval` and continues; the loop
breaks only on cancellation; and a script of outcomes with no
cancellation runs every tick, sleeping the same interval each time. -/
theorem monitoring_loop_failure_nonfatal (check_interval : ℕ) :
    (∀ o, (loop_iteration check_interval o).2.2 = false ↔ o = .cancelled) ∧
    (∀ hc, loop_iteration check_interval (.result false hc) =
      (false, some check_interval, true)) ∧
    loop_iteration check_interval .raised = (false, some check_interval, true) ∧
    (∀ outcomes : List TickOutcome, .cancelled ∉ outcomes →
      monitoring_loop_run check_interval outcomes =
        (List.replicate outcomes.length check_interval, false)) := by
  refine ⟨?_, ?_, rfl, ?_⟩
  · intro o
    cases o <;> simp [loop_iteration]
  · intro hc
    rfl
  · intro outcomes
    induction outcomes with
    | nil => intro _; rfl
    | cons o rest ih =>
      intro h
      have ho : o ≠ TickOutcome.cancelled := fun he => h (he ▸ List.mem_cons_self o rest)
      have hrest := ih (fun hm => h (List.mem_cons_of_mem o hm))
      cases o with
      | result s hc =>
        rw [List.length_cons, List.replicate_succ]
        simp [monitoring_loop_run, hrest]
      | raised =>
        rw [List.length_cons, List.replicate_succ]
        simp [monitoring_loop_run, hrest]
      | cancelled => exact absurd rfl ho

/-- C7 witness: a script where tick 2 fails with an error result and
tick 3 raises still runs all four ticks with equal sleeps; here 3600 is
the default check interval. -/
theorem monitoring_loop_failure_nonfatal_witness :
    TickOutcome.cancelled ∉
      [TickOutcome.result true false, TickOutcome.result false false,
        TickOutcome.raised, TickOutcome.result true true] ∧
    monitoring_loop_run 3600
      [TickOutcome.result true false, TickOutcome.result false false,
        TickOutcome.raised, TickOutcome.result true true] =
      ([3600, 3600, 3600, 3600], false) :=
  ⟨by decide,
    ((monitoring_loop_failure_nonfatal 3600).2.2.2
      [TickOutcome.result true false, TickOutcome.result false false,
        TickOutcome.raised, TickOutcome.result true true] (by decide))⟩

end Monitor

namespace MonitorTasks

/-- The task table `self.monitoring_tasks` of `DTEKMonitorService`
together with a supply of fresh task identities: `asyncio.create_task`
hands out the next identity. -/
structure TaskTable where
  tasks : List (ℕ × ℕ)
  next_id : ℕ
deriving DecidableEq

/-- The user keys of the table. -/
def TaskTable.keys (st : TaskTable) : List ℕ := st.tasks.map Prod.fst

/-- `start_monitoring` (dtek_monitor_service.py lines 216-233): if the
user is already in `monitoring_tasks`, log a warning and return without
creating a task; otherwise create a task and store it under the user.
The boolean reports whether the duplicate-warning branch was taken. -/
def start_monitoring (st : TaskTable) (user_id : ℕ) : TaskTable × Bool :=
  if user_id ∈ st.keys then (st, true)
  else (⟨st.tasks ++ [(user_id, st.next_id)], st.next_id + 1⟩, false)

/-- `stop_monitoring` (dtek_monitor_service.py lines 235-241): if the
user has a task, cancel it and delete the entry. -/
def stop_monitoring (st : TaskTable) (user_id : ℕ) : TaskTable :=
  if user_id ∈ st.keys then ⟨st.tasks.filter (fun p => p.1 ≠ user_id), st.next_id⟩
  else st

/-- A call of either control operation. -/
inductive MonitorOp where
  | start (user_id : ℕ)
  | stop (user_id : ℕ)
deriving DecidableEq

/-- Apply one control call to the table. -/
def apply_op (st : TaskTable) : MonitorOp → TaskTable
  | .start u => (start_monitoring st u).1
  | .stop u => stop_monitoring st u

/-- The table after a sequence of control calls, starting from the empty
table built in `__init__`. -/
def run_ops : List MonitorOp → TaskTable :=
  List.foldl apply_op ⟨[], 0⟩

lemma apply_op_keys_nodup (st : TaskTable) (op : MonitorOp)
    (h : st.keys.Nodup) : (apply_op st op).keys.Nodup := by
  cases op with
  | start u =>
    unfold apply_op start_monitoring
    dsimp only
    by_cases hmem : u ∈ st.keys
    · rw [if_pos hmem]; exact h
    · rw [if_neg hmem]
      unfold TaskTable.keys at h ⊢
      dsimp only
      rw [List.map_append]
      simp only [List.map_cons, List.map_nil]
      exact List.Nodup.append h (List.nodup_singleton u)
        (List.disjoint_singleton.mpr hmem)
  | stop u =>
    unfold apply_op stop_monitoring
    dsimp only
    by_cases hmem : u ∈ st.keys
    · rw [if_pos hmem]
      unfold TaskTable.keys at h ⊢
      dsimp only
      exact List.Nodup.sublist (List.Sublist.map Prod.fst (List.filter_sublist _)) h
    · rw [if_neg hmem]; exact h

/-- C8: starting a monitor for a user who is already running is a pure
no-op that takes the warning branch and allocates no task; and after any
sequence of `start_monitoring` / `stop_monitoring` calls the task table
holds at most one task per user key. -/
theorem one_task_per_user (u : ℕ) :
    (∀ st : TaskTable, u ∈ st.keys → start_monitoring st u = (st, true)) ∧
    (∀ ops : List MonitorOp, (run_ops ops).keys.Nodup) := by
  constructor
  · intro st hmem
    unfold start_monitoring
    rw [if_pos hmem]
  · intro ops
    have : ∀ (l : List MonitorOp) (st : TaskTable), st.keys.Nodup →
        (List.foldl apply_op st l).keys.Nodup := by
      intro l
      induction l with
      | nil => intro st h; exact h
      | cons op rest ih =>
        intro st h
        rw [List.foldl_cons]
        exact ih (apply_op st op) (apply_op_keys_nodup st op h)
    exact this ops ⟨[], 0⟩ List.nodup_nil

/-- C8 witness: with user 7 running, a second start is the warning no-op;
and a concrete start/start/stop/start script keeps the keys duplicate
free. -/
theorem one_task_per_user_witness :
    7 ∈ (TaskTable.mk [(7, 0)] 1).keys ∧
    start_monitoring ⟨[(7, 0)], 1⟩ 7 = (⟨[(7, 0)], 1⟩, true) ∧
    (run_ops [.start 7, .start 7, .stop 7, .start 9]).keys.Nodup :=
  ⟨by decide, (one_task_per_user 7).1 ⟨[(7, 0)], 1⟩ (by decide),
    (one_task_per_user 7).2 [.start 7, .start 7, .stop 7, .start 9]⟩

end MonitorTasks
